import Mathlib

/-!
Verification development for the TFTP subsystem of the xtool repository.

The development shallowly embeds the TFTP packet codec, the two client
implementations (`src/tftp/client/client_impl.rs` and
`src/tftp/client/client.rs`), the single-port server socket abstraction
(`src/tftp/core/socket.rs`) and the configuration merge functions
(`src/tftp/client/config.rs`, `src/tftp/server/config.rs`).

Bytes are modelled as `Nat` (values < 256 where it matters), byte strings as
`List Nat`, and machine integers as `Nat` with explicit `% 2^16` where the
Rust code uses wrapping `u16` arithmetic.
-/

namespace Tftp

/-- Option names from `core/options.rs` (re-exported as `OptionType` and used by
both clients).  The module file itself is absent from the tree; the four
variants are pinned by the uses in `client_impl.rs` and `client.rs`. -/
inductive OptionType where
| BlockSize
| Timeout
| WindowSize
| TransferSize
deriving DecidableEq, Repr

/-- A transfer option `{ option, value }` as used by `build_options` in
`client_impl.rs` (`value: u64`, modelled as `Nat`). -/
structure TransferOption where
option : OptionType
value : Nat
deriving DecidableEq, Repr

/-- The TFTP packet type from `core/packet.rs` (module file absent; the
variants and their fields are pinned by the pattern matches in
`client_impl.rs` and `client.rs`, and by the spec data model).  Strings are
byte lists. -/
inductive Packet where
| Rrq (filename mode : List Nat) (options : List TransferOption)
| Wrq (filename mode : List Nat) (options : List TransferOption)
| Data (block_num : Nat) (data : List Nat)
| Ack (block_num : Nat)
| Error (code : Nat) (msg : List Nat)
| Oack (options : List TransferOption)
deriving DecidableEq, Repr

/-- Decoding failure.  Modelled from the spec: decoding fails with
`MalformedPacket`. -/
inductive PacketError where
| MalformedPacket
deriving DecidableEq, Repr

/-- Big-endian encoding of a `u16` value (two bytes). -/
def u16be (n : Nat) : List Nat := [n / 256 % 256, n % 256]

/-- ASCII decimal digits of `n`, most significant first, using explicit fuel
(the fuel is always sufficient because `n / 10 < n` for `n > 0`). -/
def natToDecAux : Nat → Nat → List Nat
| 0, _ => []
| fuel + 1, n => if n = 0 then [] else natToDecAux fuel (n / 10) ++ [n % 10 + 48]

/-- ASCII decimal representation of a natural number (`"0"` for zero). -/
def natToDec (n : Nat) : List Nat := if n = 0 then [48] else natToDecAux (n + 1) n

/-- Parse one ASCII decimal digit. -/
def decDigit (b : Nat) : Option Nat := if 48 ≤ b ∧ b ≤ 57 then some (b - 48) else none

/-- Accumulating ASCII decimal parser. -/
def decToNatAux : List Nat → Nat → Option Nat
| [], acc => some acc
| b :: rest, acc =>
  match decDigit b with
  | some d => decToNatAux rest (acc * 10 + d)
  | none => none

/-- Parse a non-empty ASCII decimal byte string as a natural number; fails when
the string is empty or a byte is not an ASCII digit. -/
def decToNat : List Nat → Option Nat
| [] => none
| b :: rest => decToNatAux (b :: rest) 0

/-- Split a byte string at its first null byte: returns the prefix before the
null and the remainder after it; fails when no null terminator is present. -/
def takeUntilNull : List Nat → Option (List Nat × List Nat)
| [] => none
| b :: rest =>
  if b = 0 then some ([], rest)
  else
    match takeUntilNull rest with
    | some (s, r) => some (b :: s, r)
    | none => none

/-- Canonical (lowercase) wire name of an option, per RFC 2347/2348/2349/7440:
`blksize`, `timeout`, `windowsize`, `tsize` (ASCII bytes). -/
def optionName : OptionType → List Nat
| .BlockSize => [98, 108, 107, 115, 105, 122, 101]
| .Timeout => [116, 105, 109, 101, 111, 117, 116]
| .WindowSize => [119, 105, 110, 100, 111, 119, 115, 105, 122, 101]
| .TransferSize => [116, 115, 105, 122, 101]

/-- ASCII lowercasing of one byte. -/
def lowerNat (b : Nat) : Nat := if 65 ≤ b ∧ b ≤ 90 then b + 32 else b

/-- Recognise an option name, case-insensitively on the wire. -/
def parseOptName (name : List Nat) : Option OptionType :=
let l := name.map lowerNat
if l = optionName .BlockSize then some .BlockSize
else if l = optionName .Timeout then some .Timeout
else if l = optionName .WindowSize then some .WindowSize
else if l = optionName .TransferSize then some .TransferSize
else none

/-- Serialize options as alternating null-terminated `name`/`value` pairs,
names canonicalized to lowercase, values as ASCII decimal. -/
def encodeOptions : List TransferOption → List Nat
| [] => []
| o :: rest => optionName o.option ++ [0] ++ natToDec o.value ++ [0] ++ encodeOptions rest

/-- Parse alternating null-terminated `name`/`value` pairs; unknown option
names are dropped, a value that is not ASCII decimal or a missing null
terminator is a failure.  Recursion measured by explicit fuel (one unit per
consumed pair is ample because each pair consumes at least two bytes). -/
def parseOptionsAux : Nat → List Nat → Option (List TransferOption)
| _, [] => some []
| 0, _ :: _ => none
| fuel + 1, b :: bs =>
  match takeUntilNull (b :: bs) with
  | none => none
  | some (name, r1) =>
    match takeUntilNull r1 with
    | none => none
    | some (val, r2) =>
      match decToNat val, parseOptionsAux fuel r2 with
      | some v, some rest =>
        match parseOptName name with
        | some t => some (⟨t, v⟩ :: rest)
        | none => some rest
      | _, _ => none

/-- Parse an option list from a byte string. -/
def parseOptions (bytes : List Nat) : Option (List TransferOption) :=
parseOptionsAux bytes.length bytes

/-- Parse the body of an RRQ/WRQ: null-terminated filename, null-terminated
mode, then options. -/
def parseRequestBody (rest : List Nat) : Option (List Nat × List Nat × List TransferOption) :=
match takeUntilNull rest with
| none => none
| some (f, r1) =>
  match takeUntilNull r1 with
  | none => none
  | some (m, r2) =>
    match parseOptions r2 with
    | none => none
    | some o => some (f, m, o)

/-- Modelled from the spec: the packet encoder of the absent `core/packet.rs`.
Opcode as big-endian `u16`, strings null-terminated, options as alternating
`name\x00value\x00` pairs, DATA/ACK block numbers and ERROR codes as
big-endian `u16`. -/
def Packet.serialize : Packet → List Nat
| .Rrq f m o => [0, 1] ++ f ++ [0] ++ m ++ [0] ++ encodeOptions o
| .Wrq f m o => [0, 2] ++ f ++ [0] ++ m ++ [0] ++ encodeOptions o
| .Data b d => [0, 3] ++ u16be b ++ d
| .Ack b => [0, 4] ++ u16be b
| .Error c msg => [0, 5] ++ u16be c ++ msg ++ [0]
| .Oack o => [0, 6] ++ encodeOptions o

/-- Modelled from the spec: the packet decoder of the absent `core/packet.rs`.
Fails with `MalformedPacket` when the input is shorter than 2 bytes, the
opcode is outside `1..=6`, a required null terminator is missing, a numeric
field is not ASCII decimal, or a DATA payload exceeds the negotiated block
size (`blockSize`). -/
def Packet.deserialize (blockSize : Nat) (bytes : List Nat) : Except PacketError Packet :=
match bytes with
| b0 :: b1 :: rest =>
  let opcode := b0 * 256 + b1
  if opcode = 1 then
    match parseRequestBody rest with
    | some (f, m, o) => .ok (.Rrq f m o)
    | none => .error .MalformedPacket
  else if opcode = 2 then
    match parseRequestBody rest with
    | some (f, m, o) => .ok (.Wrq f m o)
    | none => .error .MalformedPacket
  else if opcode = 3 then
    match rest with
    | c0 :: c1 :: payload =>
      if blockSize < payload.length then .error .MalformedPacket
      else .ok (.Data (c0 * 256 + c1) payload)
    | _ => .error .MalformedPacket
  else if opcode = 4 then
    match rest with
    | [c0, c1] => .ok (.Ack (c0 * 256 + c1))
    | _ => .error .MalformedPacket
  else if opcode = 5 then
    match rest with
    | c0 :: c1 :: msgNats =>
      match takeUntilNull msgNats with
      | some (msg, []) => .ok (.Error (c0 * 256 + c1) msg)
      | _ => .error .MalformedPacket
    | _ => .error .MalformedPacket
  else if opcode = 6 then
    match parseOptions rest with
    | some o => .ok (.Oack o)
    | none => .error .MalformedPacket
  else .error .MalformedPacket
| _ => .error .MalformedPacket

/-- Validity of a packet for the round-trip property: `u16` fields are in
range, strings carry no embedded null (the encoder rejects embedded nulls),
and a DATA payload does not exceed the block size. -/
def ValidPacket (blockSize : Nat) : Packet → Prop
| .Rrq f m _ => 0 ∉ f ∧ 0 ∉ m
| .Wrq f m _ => 0 ∉ f ∧ 0 ∉ m
| .Data b d => b < 65536 ∧ d.length ≤ blockSize
| .Ack b => b < 65536
| .Error c msg => c < 65536 ∧ 0 ∉ msg
| .Oack _ => True

instance (blockSize : Nat) : (p : Packet) → Decidable (ValidPacket blockSize p)
| .Rrq _ _ _ => inferInstanceAs (Decidable (_ ∧ _))
| .Wrq _ _ _ => inferInstanceAs (Decidable (_ ∧ _))
| .Data _ _ => inferInstanceAs (Decidable (_ ∧ _))
| .Ack _ => inferInstanceAs (Decidable (_ < _))
| .Error _ _ => inferInstanceAs (Decidable (_ ∧ _))
| .Oack _ => inferInstanceAs (Decidable True)

theorem takeUntilNull_append (s rest : List Nat) (h : 0 ∉ s) :
    takeUntilNull (s ++ 0 :: rest) = some (s, rest) := by
  induction s with
  | nil => simp [takeUntilNull]
  | cons a s ih =>
    have ha : a ≠ 0 := fun hz => h (by simp [hz])
    have hs : 0 ∉ s := fun hz => h (by simp [hz])
    simp [takeUntilNull, ha, ih hs]

theorem u16be_decode (n : Nat) (h : n < 65536) : n / 256 % 256 * 256 + n % 256 = n := by
  omega

theorem natToDecAux_ne_nil (fuel n : Nat) (hn : n ≠ 0) (hf : fuel ≠ 0) :
    natToDecAux fuel n ≠ [] := by
  cases fuel with
  | zero => exact absurd rfl hf
  | succ f => simp [natToDecAux, hn]

theorem natToDecAux_digits (fuel n : Nat) (b : Nat) (hb : b ∈ natToDecAux fuel n) :
    48 ≤ b ∧ b ≤ 57 := by
  induction fuel generalizing n with
  | zero => simp [natToDecAux] at hb
  | succ f ih =>
    by_cases hn : n = 0
    · simp [natToDecAux, hn] at hb
    · simp only [natToDecAux, hn, if_false, List.mem_append, List.mem_singleton] at hb
      rcases hb with hb | hb
      · exact ih _ hb
      · subst hb
        have h10 : n % 10 < 10 := Nat.mod_lt _ (by omega)
        exact ⟨by omega, by omega⟩

theorem natToDec_no_null (n : Nat) : 0 ∉ natToDec n := by
  intro hmem
  unfold natToDec at hmem
  by_cases hn : n = 0
  · simp [hn] at hmem
  · simp only [hn, if_false] at hmem
    obtain ⟨h48, _⟩ := natToDecAux_digits (n + 1) n 0 hmem
    omega

theorem natToDec_ne_nil (n : Nat) : natToDec n ≠ [] := by
  unfold natToDec
  by_cases hn : n = 0
  · simp [hn]
  · simp only [hn, if_false]
    exact natToDecAux_ne_nil _ _ hn (by omega)

theorem decToNatAux_append (l1 l2 : List Nat) (acc : Nat) :
    decToNatAux (l1 ++ l2) acc =
      match decToNatAux l1 acc with
      | some a => decToNatAux l2 a
      | none => none := by
  induction l1 generalizing acc with
  | nil => simp [decToNatAux]
  | cons b rest ih =>
    simp only [List.cons_append, decToNatAux]
    cases decDigit b with
    | none => rfl
    | some d => exact ih _

theorem natToDecAux_zero (fuel : Nat) : natToDecAux fuel 0 = [] := by
  cases fuel <;> simp [natToDecAux]

theorem decToNatAux_natToDecAux (fuel n : Nat) (hfn : n ≤ fuel) (hn : n ≠ 0) (acc : Nat) :
    decToNatAux (natToDecAux fuel n) acc =
      some (acc * 10 ^ (natToDecAux fuel n).length + n) := by
  induction fuel generalizing n acc with
  | zero => omega
  | succ f ih =>
    simp only [natToDecAux, hn, if_false]
    rw [decToNatAux_append]
    have hdig : decDigit (n % 10 + 48) = some (n % 10) := by
      have h10 : n % 10 < 10 := Nat.mod_lt _ (by omega)
      unfold decDigit
      have hcond : 48 ≤ n % 10 + 48 ∧ n % 10 + 48 ≤ 57 := ⟨by omega, by omega⟩
      rw [if_pos hcond]
      simp
    by_cases hq : n / 10 = 0
    · have hlt : n < 10 := by omega
      simp only [hq, natToDecAux_zero, List.nil_append, decToNatAux, hdig,
        List.length_singleton, pow_one]
      have hmod : n % 10 = n := Nat.mod_eq_of_lt hlt
      rw [hmod]
    · have hle : n / 10 ≤ f := by
        have hlt10 : n / 10 < n := Nat.div_lt_self (Nat.pos_of_ne_zero hn) (by norm_num)
        omega
      rw [ih (n / 10) hle hq acc]
      simp only [decToNatAux, hdig, List.length_append, List.length_singleton]
      congr 1
      have hdm : n / 10 * 10 + n % 10 = n := by omega
      rw [pow_succ]
      calc (acc * 10 ^ (natToDecAux f (n / 10)).length + n / 10) * 10 + n % 10
          = acc * (10 ^ (natToDecAux f (n / 10)).length * 10) + (n / 10 * 10 + n % 10) := by
            ring
        _ = acc * (10 ^ (natToDecAux f (n / 10)).length * 10) + n := by rw [hdm]

theorem decToNat_natToDec (n : Nat) : decToNat (natToDec n) = some n := by
  by_cases hn : n = 0
  · subst hn
    decide
  · have hne := natToDec_ne_nil n
    unfold natToDec at hne ⊢
    simp only [hn, if_false] at hne ⊢
    obtain ⟨b, bs, hbs⟩ := List.exists_cons_of_ne_nil hne
    rw [hbs]
    show decToNatAux (b :: bs) 0 = some n
    rw [← hbs, decToNatAux_natToDecAux (n + 1) n (by omega) hn 0]
    simp

theorem parseOptName_optionName (t : OptionType) :
    parseOptName (optionName t) = some t := by
  cases t <;> decide

theorem optionName_ne_nil (t : OptionType) : optionName t ≠ [] := by
  cases t <;> decide

theorem optionName_no_null (t : OptionType) : 0 ∉ optionName t := by
  cases t <;> decide

theorem parseOptionsAux_nil (fuel : Nat) : parseOptionsAux fuel [] = some [] := by
  cases fuel <;> rfl

theorem parseOptionsAux_encode (opts : List TransferOption) :
    ∀ fuel : Nat, (encodeOptions opts).length ≤ fuel →
      parseOptionsAux fuel (encodeOptions opts) = some opts := by
  induction opts with
  | nil =>
    intro fuel _
    exact parseOptionsAux_nil fuel
  | cons o rest ih =>
    intro fuel hfuel
    have hnm := optionName_ne_nil o.option
    have hval := natToDec_ne_nil o.value
    obtain ⟨b, bs, hbs⟩ := List.exists_cons_of_ne_nil hnm
    have hlenNm : 0 < (optionName o.option).length := by
      rw [hbs]; simp
    have hlenVal : 0 < (natToDec o.value).length := List.length_pos.2 hval
    have hshape : encodeOptions (o :: rest) =
        b :: (bs ++ [0] ++ natToDec o.value ++ [0] ++ encodeOptions rest) := by
      show optionName o.option ++ [0] ++ natToDec o.value ++ [0] ++ encodeOptions rest = _
      rw [hbs]
      simp
    have hlen : (encodeOptions (o :: rest)).length =
        (optionName o.option).length + (natToDec o.value).length + 2 +
          (encodeOptions rest).length := by
      show (optionName o.option ++ [0] ++ natToDec o.value ++ [0] ++ encodeOptions rest).length = _
      simp
      omega
    cases fuel with
    | zero =>
      rw [hshape] at hfuel
      simp at hfuel
    | succ f =>
      rw [hshape]
      show parseOptionsAux (f + 1) (b :: (bs ++ [0] ++ natToDec o.value ++ [0] ++ encodeOptions rest)) = _
      have hsplit1 : takeUntilNull (b :: (bs ++ [0] ++ natToDec o.value ++ [0] ++ encodeOptions rest))
          = some (optionName o.option, natToDec o.value ++ [0] ++ encodeOptions rest) := by
        have : b :: (bs ++ [0] ++ natToDec o.value ++ [0] ++ encodeOptions rest)
            = optionName o.option ++ 0 :: (natToDec o.value ++ [0] ++ encodeOptions rest) := by
          rw [hbs]; simp
        rw [this]
        exact takeUntilNull_append _ _ (optionName_no_null o.option)
      have hsplit2 : takeUntilNull (natToDec o.value ++ [0] ++ encodeOptions rest)
          = some (natToDec o.value, encodeOptions rest) := by
        have : natToDec o.value ++ [0] ++ encodeOptions rest
            = natToDec o.value ++ 0 :: encodeOptions rest := by simp
        rw [this]
        exact takeUntilNull_append _ _ (natToDec_no_null o.value)
      have hrest : parseOptionsAux f (encodeOptions rest) = some rest := by
        apply ih
        rw [hlen] at hfuel
        omega
      simp only [parseOptionsAux, hsplit1, hsplit2, decToNat_natToDec, hrest,
        parseOptName_optionName o.option]

theorem parseOptions_encode (opts : List TransferOption) :
    parseOptions (encodeOptions opts) = some opts :=
  parseOptionsAux_encode opts _ (Nat.le_refl _)

theorem parseRequestBody_encode (f m : List Nat) (o : List TransferOption)
    (hf : 0 ∉ f) (hm : 0 ∉ m) :
    parseRequestBody (f ++ 0 :: (m ++ 0 :: encodeOptions o)) = some (f, m, o) := by
  simp only [parseRequestBody, takeUntilNull_append f _ hf, takeUntilNull_append m _ hm,
    parseOptions_encode]

theorem deserialize_serialize (bs : Nat) (p : Packet) (h : ValidPacket bs p) :
    Packet.deserialize bs (Packet.serialize p) = Except.ok p := by
  cases p with
  | Rrq f m o =>
    obtain ⟨hf, hm⟩ := h
    have hser : Packet.serialize (.Rrq f m o)
        = 0 :: 1 :: (f ++ [0] ++ m ++ [0] ++ encodeOptions o) := by
      simp [Packet.serialize]
    rw [hser]
    simp only [Packet.deserialize]
    norm_num
    rw [parseRequestBody_encode f m o hf hm]
  | Wrq f m o =>
    obtain ⟨hf, hm⟩ := h
    have hser : Packet.serialize (.Wrq f m o)
        = 0 :: 2 :: (f ++ [0] ++ m ++ [0] ++ encodeOptions o) := by
      simp [Packet.serialize]
    rw [hser]
    simp only [Packet.deserialize]
    norm_num
    rw [parseRequestBody_encode f m o hf hm]
  | Data b d =>
    obtain ⟨hb, hd⟩ := h
    have hser : Packet.serialize (.Data b d)
        = 0 :: 3 :: (b / 256 % 256) :: (b % 256) :: d := by
      simp [Packet.serialize, u16be]
    rw [hser]
    simp only [Packet.deserialize]
    norm_num
    rw [if_neg (Nat.not_lt.2 hd), u16be_decode b hb]
  | Ack b =>
    have hser : Packet.serialize (.Ack b)
        = 0 :: 4 :: (b / 256 % 256) :: (b % 256) :: [] := by
      simp [Packet.serialize, u16be]
    rw [hser]
    simp only [Packet.deserialize]
    norm_num
    rw [u16be_decode b h]
  | Error c msg =>
    obtain ⟨hc, hmsg⟩ := h
    have hser : Packet.serialize (.Error c msg)
        = 0 :: 5 :: (c / 256 % 256) :: (c % 256) :: (msg ++ 0 :: []) := by
      simp [Packet.serialize, u16be]
    rw [hser]
    simp only [Packet.deserialize]
    norm_num
    rw [takeUntilNull_append msg [] hmsg, u16be_decode c hc]
  | Oack o =>
    have hser : Packet.serialize (.Oack o) = 0 :: 6 :: encodeOptions o := by
      simp [Packet.serialize]
    rw [hser]
    simp only [Packet.deserialize]
    norm_num
    rw [parseOptions_encode o]

theorem deserialize_not_ok_malformed (bs : Nat) (bytes : List Nat)
    (h : ¬ ∃ p, Packet.deserialize bs bytes = Except.ok p) :
    Packet.deserialize bs bytes = Except.error PacketError.MalformedPacket := by
  cases hdes : Packet.deserialize bs bytes with
  | ok p => exact absurd ⟨p, hdes⟩ h
  | error e => cases e; rfl

/-- C1.  Codec round-trip: for every valid TFTP packet of every variant
(RRQ, WRQ, DATA, ACK, ERROR, OACK), deserializing the serialization yields
the packet back; and every non-empty byte string that is not a well-formed
packet deserializes to the `MalformedPacket` error (deserialization is a
total function, so it cannot panic). -/
theorem codec_roundtrip_and_malformed :
    (∀ (bs : Nat) (p : Packet), ValidPacket bs p →
      Packet.deserialize bs (Packet.serialize p) = Except.ok p) ∧
    (∀ (bs : Nat) (bytes : List Nat), bytes ≠ [] →
      (¬ ∃ p, Packet.deserialize bs bytes = Except.ok p) →
      Packet.deserialize bs bytes = Except.error PacketError.MalformedPacket) :=
  ⟨deserialize_serialize, fun bs bytes _ h => deserialize_not_ok_malformed bs bytes h⟩

/-- Concrete packets exercising every variant of the codec. -/
def samplePackets : List Packet :=
  [Packet.Rrq [104, 105] [111, 99, 116, 101, 116]
      [⟨OptionType.BlockSize, 1024⟩, ⟨OptionType.TransferSize, 0⟩],
   Packet.Wrq [97] [111, 99, 116, 101, 116] [⟨OptionType.WindowSize, 4⟩],
   Packet.Data 65535 [1, 2, 3],
   Packet.Ack 513,
   Packet.Error 5 [85, 110, 107],
   Packet.Oack [⟨OptionType.Timeout, 5⟩]]

/-- Witness for C1: the round-trip theorem applied at a concrete RRQ carrying
options, and the malformed branch applied at the 1-byte input `[0]`. -/
theorem codec_roundtrip_and_malformed_witness :
    ValidPacket 512 (Packet.Rrq [104, 105] [111, 99, 116, 101, 116]
        [⟨OptionType.BlockSize, 1024⟩, ⟨OptionType.TransferSize, 0⟩]) ∧
    Packet.deserialize 512 (Packet.serialize (Packet.Rrq [104, 105] [111, 99, 116, 101, 116]
        [⟨OptionType.BlockSize, 1024⟩, ⟨OptionType.TransferSize, 0⟩]))
      = Except.ok (Packet.Rrq [104, 105] [111, 99, 116, 101, 116]
        [⟨OptionType.BlockSize, 1024⟩, ⟨OptionType.TransferSize, 0⟩]) ∧
    Packet.deserialize 512 [0] = Except.error PacketError.MalformedPacket := by
  refine ⟨by decide, codec_roundtrip_and_malformed.1 512 _ (by decide), ?_⟩
  apply codec_roundtrip_and_malformed.2 512 [0] (by decide)
  intro hex
  obtain ⟨p, hp⟩ := hex
  rw [show Packet.deserialize 512 [0] = Except.error PacketError.MalformedPacket from rfl]
    at hp
  exact Except.noConfusion hp

/-! ## Client model (`src/tftp/client/client_impl.rs`)

`Client::get` and `Client::put` are loops around `socket.recv_from`.  Each
loop iteration either receives a datagram `(packet, source address)` or times
out; the model turns one iteration into a step function on the loop state,
returning the continuation decision together with the list of datagrams sent
during the iteration. -/

/-- A socket address `(ip, port)`. -/
structure Addr where
ip : Nat
port : Nat
deriving DecidableEq, Repr

/-- The resolved client configuration (the fields of `Client` in
`client_impl.rs` plus the per-call request parameters).  `maxRetries` models
the local variable `max_retries` of `get`/`put`, which the source hardcodes
to 5 (`clientImplMaxRetries`). -/
structure ClientCfg where
serverIp : Nat
serverPort : Nat
blockSize : Nat
timeoutSecs : Nat
windowSize : Nat
mode : List Nat
remoteFile : List Nat
maxRetries : Nat
deriving DecidableEq, Repr

/-- The hardcoded `let max_retries = 5;` of `Client::get` and `Client::put`. -/
def clientImplMaxRetries : Nat := 5

/-- `Client::build_options`: always `blksize`, `timeout`, `windowsize`; `tsize`
only when the transfer size is positive. -/
def buildOptions (cfg : ClientCfg) (transferSize : Nat) : List TransferOption :=
[⟨.BlockSize, cfg.blockSize⟩, ⟨.Timeout, cfg.timeoutSecs⟩, ⟨.WindowSize, cfg.windowSize⟩]
  ++ (if 0 < transferSize then [⟨.TransferSize, transferSize⟩] else [])

/-- The RRQ sent by `Client::get` (options built with transfer size 0). -/
def rrqPacket (cfg : ClientCfg) : Packet :=
.Rrq cfg.remoteFile cfg.mode (buildOptions cfg 0)

/-- The WRQ sent by `Client::put` (options built with the file size). -/
def wrqPacket (cfg : ClientCfg) (fileSize : Nat) : Packet :=
.Wrq cfg.remoteFile cfg.mode (buildOptions cfg fileSize)

/-- The initial server address `SocketAddr::new(self.server_ip, self.server_port)`. -/
def initAddr (cfg : ClientCfg) : Addr := ⟨cfg.serverIp, cfg.serverPort⟩

/-- One observable outcome of `socket.recv_from` inside the loop. -/
inductive Event where
| Recv (src : Addr) (p : Packet)
| Timeout
deriving DecidableEq, Repr

/-- Transfer failure: local timeout after retry exhaustion, or a received
ERROR packet surfaced as `anyhow` error. -/
inductive TftpErr where
| TimedOut
| Remote (code : Nat) (msg : List Nat)
deriving DecidableEq, Repr

/-- How a run ends: completed (`break`), failed (`return Err`), or the event
script was exhausted with the loop still running. -/
inductive TermStatus where
| Ok
| Err (e : TftpErr)
| Pending
deriving DecidableEq, Repr

/-- Mutable loop state of `Client::get`: TID tracking, expected block number
(`block_num`, u16), retry counter, plus the payloads written to the file. -/
structure GetState where
tidSet : Bool
serverAddr : Addr
blockNum : Nat
retries : Nat
writes : List (List Nat)
deriving DecidableEq, Repr

/-- Continuation decision of one `get` iteration. -/
inductive GetOutcome where
| Continue (s : GetState)
| Done (s : GetState)
| Fail (e : TftpErr) (s : GetState)
deriving DecidableEq, Repr

/-- The packet dispatch of `Client::get` (lines 115-148 of `client_impl.rs`),
after the TID check has accepted the datagram. -/
def getProcess (cfg : ClientCfg) (s : GetState) (p : Packet) :
    GetOutcome × List (Addr × Packet) :=
match p with
| .Data block data =>
  if block = s.blockNum then
    let s2 : GetState :=
      { s with writes := s.writes ++ [data], blockNum := (s.blockNum + 1) % 65536,
               retries := 0 }
    if data.length < cfg.blockSize then (.Done s2, [(s.serverAddr, .Ack block)])
    else (.Continue s2, [(s.serverAddr, .Ack block)])
  else (.Continue s, [])
| .Error code msg => (.Fail (.Remote code msg) s, [])
| .Oack _ =>
  if s.blockNum = 1 then (.Continue s, [(s.serverAddr, .Ack 0)])
  else (.Continue s, [])
| _ => (.Continue s, [])

/-- One iteration of the `Client::get` loop (lines 100-166 of
`client_impl.rs`): TID filtering on receive, and last-ACK retransmission with
retry accounting on timeout. -/
def getStep (cfg : ClientCfg) (s : GetState) (ev : Event) :
    GetOutcome × List (Addr × Packet) :=
match ev with
| .Timeout =>
  if cfg.maxRetries ≤ s.retries then (.Fail .TimedOut s, [])
  else (.Continue { s with retries := s.retries + 1 },
        [(s.serverAddr, .Ack ((s.blockNum + 65535) % 65536))])
| .Recv src p =>
  if s.tidSet then
    if src = s.serverAddr then getProcess cfg s p
    else (.Continue s, [])
  else
    if src.ip = cfg.serverIp then
      getProcess cfg { s with tidSet := true, serverAddr := src } p
    else (.Continue s, [])

/-- Result of running a client loop over an event script. -/
structure GetRunRes where
state : GetState
fileCreated : Bool
sends : List (Addr × Packet)
term : TermStatus
deriving DecidableEq, Repr

/-- Fold `getStep` over an event script, stopping at `break`/`return`. -/
def getSteps (cfg : ClientCfg) (s : GetState) :
    List Event → GetState × List (Addr × Packet) × TermStatus
| [] => (s, [], .Pending)
| e :: es =>
  match getStep cfg s e with
  | (.Done s2, out) => (s2, out, .Ok)
  | (.Fail err s2, out) => (s2, out, .Err err)
  | (.Continue s2, out) =>
    let r := getSteps cfg s2 es
    (r.1, out ++ r.2.1, r.2.2)

/-- The initial `get` loop state: `block_num = 1`, `retries = 0`, TID unset. -/
def getInit (cfg : ClientCfg) : GetState :=
⟨false, initAddr cfg, 1, 0, []⟩

/-- `Client::get` as a run over an event script: sends the RRQ, creates the
local file (`File::create` at line 95, before the receive loop), then runs
the loop. -/
def getRun (cfg : ClientCfg) (events : List Event) : GetRunRes :=
let r := getSteps cfg (getInit cfg) events
⟨r.1, true, (initAddr cfg, rrqPacket cfg) :: r.2.1, r.2.2⟩

/-- Mutable loop state of `Client::put`: TID tracking, the last transmitted
block number (`block_num`, u16, 0 until the first DATA), retry counter, the
`finished` flag, and the file read position. -/
structure PutState where
tidSet : Bool
serverAddr : Addr
blockNum : Nat
retries : Nat
finished : Bool
fileOff : Nat
deriving DecidableEq, Repr

/-- Continuation decision of one `put` iteration. -/
inductive PutOutcome where
| Continue (s : PutState)
| Done (s : PutState)
| Fail (e : TftpErr) (s : PutState)
deriving DecidableEq, Repr

/-- `file.read(&mut data)` of up to `n` bytes at offset `off`. -/
def readChunk (file : List Nat) (off n : Nat) : List Nat :=
(file.drop off).take n

/-- The packet dispatch of `Client::put` (lines 218-267 of `client_impl.rs`),
after the TID check has accepted the datagram. -/
def putProcess (cfg : ClientCfg) (file : List Nat) (s : PutState) (p : Packet) :
    PutOutcome × List (Addr × Packet) :=
match p with
| .Ack block =>
  if block = s.blockNum then
    if s.finished then (.Done s, [])
    else
      let b2 := (s.blockNum + 1) % 65536
      let data := readChunk file s.fileOff cfg.blockSize
      let s2 : PutState :=
        { s with blockNum := b2, fileOff := s.fileOff + data.length,
                 finished := s.finished || decide (data.length < cfg.blockSize),
                 retries := 0 }
      (.Continue s2, [(s.serverAddr, .Data b2 data)])
  else (.Continue s, [])
| .Oack _ =>
  if s.blockNum = 0 then
    let data := readChunk file s.fileOff cfg.blockSize
    let s2 : PutState :=
      { s with blockNum := 1, fileOff := s.fileOff + data.length,
               finished := s.finished || decide (data.length < cfg.blockSize),
               retries := 0 }
    (.Continue s2, [(s.serverAddr, .Data 1 data)])
  else (.Continue s, [])
| .Error code msg => (.Fail (.Remote code msg) s, [])
| _ => (.Continue s, [])

/-- One iteration of the `Client::put` loop (lines 203-310 of
`client_impl.rs`): TID filtering on receive; on timeout, resend the WRQ while
`block_num == 0`, otherwise seek to `(block_num - 1) * block_size` and resend
that DATA block. -/
def putStep (cfg : ClientCfg) (file : List Nat) (s : PutState) (ev : Event) :
    PutOutcome × List (Addr × Packet) :=
match ev with
| .Timeout =>
  if cfg.maxRetries ≤ s.retries then (.Fail .TimedOut s, [])
  else if s.blockNum = 0 then
    (.Continue { s with retries := s.retries + 1 },
     [(s.serverAddr, wrqPacket cfg file.length)])
  else
    let off := (s.blockNum - 1) * cfg.blockSize
    let data := readChunk file off cfg.blockSize
    (.Continue { s with retries := s.retries + 1, fileOff := off + data.length },
     [(s.serverAddr, .Data s.blockNum data)])
| .Recv src p =>
  if s.tidSet then
    if src = s.serverAddr then putProcess cfg file s p
    else (.Continue s, [])
  else
    if src.ip = cfg.serverIp then
      putProcess cfg file { s with tidSet := true, serverAddr := src } p
    else (.Continue s, [])

/-- Fold `putStep` over an event script, stopping at `break`/`return`. -/
def putSteps (cfg : ClientCfg) (file : List Nat) (s : PutState) :
    List Event → PutState × List (Addr × Packet) × TermStatus
| [] => (s, [], .Pending)
| e :: es =>
  match putStep cfg file s e with
  | (.Done s2, out) => (s2, out, .Ok)
  | (.Fail err s2, out) => (s2, out, .Err err)
  | (.Continue s2, out) =>
    let r := putSteps cfg file s2 es
    (r.1, out ++ r.2.1, r.2.2)

/-- The initial `put` loop state: `block_num = 0`, `retries = 0`,
`finished = false`, TID unset, file position 0. -/
def putInit (cfg : ClientCfg) : PutState :=
⟨false, initAddr cfg, 0, 0, false, 0⟩

/-- `Client::put` as a run over an event script: sends the WRQ (with the file
size as `tsize`), then runs the loop. -/
def putRun (cfg : ClientCfg) (file : List Nat) (events : List Event) :
    PutState × List (Addr × Packet) × TermStatus :=
let r := putSteps cfg file (putInit cfg) events
(r.1, (initAddr cfg, wrqPacket cfg file.length) :: r.2.1, r.2.2)

/-- The block numbers of the DATA packets in a send trace, in order. -/
def dataBlocks : List (Addr × Packet) → List Nat
| [] => []
| (_, .Data b _) :: rest => b :: dataBlocks rest
| _ :: rest => dataBlocks rest

/-- The number of WRQ packets in a send trace. -/
def countWrq : List (Addr × Packet) → Nat
| [] => 0
| (_, .Wrq _ _ _) :: rest => countWrq rest + 1
| _ :: rest => countWrq rest

/-- The number of RRQ packets in a send trace. -/
def countRrq : List (Addr × Packet) → Nat
| [] => 0
| (_, .Rrq _ _ _) :: rest => countRrq rest + 1
| _ :: rest => countRrq rest

/-- The number of ACK packets in a send trace. -/
def countAck : List (Addr × Packet) → Nat
| [] => 0
| (_, .Ack _) :: rest => countAck rest + 1
| _ :: rest => countAck rest

/-! ## The windowed client (`src/tftp/client/client.rs`)

`Client::receive_file` (lines 217-291) is the receive loop of the second,
windowed client implementation.  Its socket is connected, so sends carry no
address. -/

/-- Loop state of `Client::receive_file`: the expected block number and the
payloads written to the file. -/
structure RecvFileState where
expected : Nat
chunks : List (List Nat)
deriving DecidableEq, Repr

/-- Continuation decision of one `receive_file` iteration. -/
inductive RecvFileOutcome where
| Continue (s : RecvFileState)
| Done (s : RecvFileState)
| Fail (code : Nat) (msg : List Nat) (s : RecvFileState)
deriving DecidableEq, Repr

/-- One iteration of the `Client::receive_file` loop (lines 249-288 of
`client.rs`): an in-order DATA is written and ACKed (short payload breaks the
loop, otherwise the expected block is bumped); a DATA with any other block
number is discarded and the previous ACK (`expected - 1`, wrapping) is
resent; ERROR fails; other packets are ignored. -/
def recvFileStep (blockSize : Nat) (s : RecvFileState) (p : Packet) :
    RecvFileOutcome × List Packet :=
match p with
| .Data block data =>
  if block = s.expected then
    let s2 : RecvFileState := { s with chunks := s.chunks ++ [data] }
    if data.length < blockSize then (.Done s2, [.Ack block])
    else (.Continue { s2 with expected := (s.expected + 1) % 65536 }, [.Ack block])
  else (.Continue s, [.Ack ((s.expected + 65535) % 65536)])
| .Error code msg => (.Fail code msg s, [])
| _ => (.Continue s, [])

/-! ## Sample inputs used by concrete counterexamples and witnesses -/

/-- A concrete client configuration: server `10:69`, block size 512, timeout
5s, window 1, octet mode, retry budget as hardcoded in the source. -/
def sampleCfg : ClientCfg :=
⟨10, 69, 512, 5, 1, [111, 99, 116, 101, 116], [102, 105, 108, 101], clientImplMaxRetries⟩

/-- A `get` loop state with the TID established at `10:2000`. -/
def sampleGetState : GetState := ⟨true, ⟨10, 2000⟩, 3, 0, [[1]]⟩

/-! ## C3: packets from a foreign TID -/

/-- C3 counterexample.  The claim says a packet from a source other than the
established peer TID is answered with `ERROR{5, "Unknown transfer ID"}`; in
`client_impl.rs` both `get` (line 111) and `put` (line 214) just `continue`,
so the foreign sender receives nothing at all: at a concrete foreign-source
DATA packet the step sends the empty list of datagrams. -/
theorem foreign_tid_no_error_counterexample :
    (getStep sampleCfg sampleGetState (.Recv ⟨10, 50001⟩ (.Data 1 [7]))).2 = [] ∧
    getStep sampleCfg sampleGetState (.Recv ⟨10, 50001⟩ (.Data 1 [7]))
      = (.Continue sampleGetState, []) ∧
    sampleGetState.tidSet = true ∧ (⟨10, 50001⟩ : Addr) ≠ sampleGetState.serverAddr := by
  decide

/-- C3 as amended.  Once the TID is set, a datagram whose source address
differs from the established peer is silently dropped by `Client::get` and
`Client::put`: no packet (in particular no `ERROR{5}`) is sent, and the
transfer state is completely unchanged. -/
theorem foreign_tid_silently_ignored :
    (∀ (cfg : ClientCfg) (s : GetState) (src : Addr) (p : Packet),
      s.tidSet = true → src ≠ s.serverAddr →
      getStep cfg s (.Recv src p) = (.Continue s, [])) ∧
    (∀ (cfg : ClientCfg) (file : List Nat) (s : PutState) (src : Addr) (p : Packet),
      s.tidSet = true → src ≠ s.serverAddr →
      putStep cfg file s (.Recv src p) = (.Continue s, [])) := by
  constructor
  · intro cfg s src p htid hsrc
    simp [getStep, htid, hsrc]
  · intro cfg file s src p htid hsrc
    simp [putStep, htid, hsrc]

/-- Witness for the amended C3 at a concrete foreign packet. -/
theorem foreign_tid_silently_ignored_witness :
    getStep sampleCfg sampleGetState (.Recv ⟨10, 50002⟩ (.Ack 1))
      = (.Continue sampleGetState, []) :=
  foreign_tid_silently_ignored.1 sampleCfg sampleGetState ⟨10, 50002⟩ (.Ack 1)
    (by decide) (by decide)

/-! ## C5: short DATA terminates the download -/

/-- C5.  An in-order DATA packet from the peer whose payload is strictly
shorter than the configured block size makes `Client::get` write the payload
to the file, send the final ACK for that block, and break out of the loop
successfully. -/
theorem short_data_terminates (cfg : ClientCfg) (s : GetState) (src : Addr)
    (data : List Nat) (htid : s.tidSet = true) (hsrc : src = s.serverAddr)
    (hshort : data.length < cfg.blockSize) :
    getStep cfg s (.Recv src (.Data s.blockNum data)) =
      (.Done { s with writes := s.writes ++ [data],
                      blockNum := (s.blockNum + 1) % 65536, retries := 0 },
       [(s.serverAddr, .Ack s.blockNum)]) := by
  simp [getStep, getProcess, htid, hsrc, hshort]

/-- Witness for C5 at a concrete short DATA packet. -/
theorem short_data_terminates_witness :
    ([9, 9] : List Nat).length < sampleCfg.blockSize ∧
    getStep sampleCfg sampleGetState (.Recv ⟨10, 2000⟩ (.Data 3 [9, 9])) =
      (.Done { sampleGetState with writes := [[1], [9, 9]], blockNum := 4, retries := 0 },
       [(⟨10, 2000⟩, .Ack 3)]) := by
  refine ⟨by decide, ?_⟩
  have h := short_data_terminates sampleCfg sampleGetState ⟨10, 2000⟩ [9, 9]
    (by decide) (by decide) (by decide)
  simpa [sampleGetState] using h

/-! ## C7: server ERROR on RRQ -/

/-- C7 counterexample.  The claim says no local file is created when the
server answers the RRQ with `ERROR{1, "File not found"}`; but `File::create`
runs at line 95 of `client_impl.rs`, before the receive loop, so after the
error return the (empty) local file exists: at a concrete run consisting of a
single ERROR reply the result is an error and `fileCreated` is true. -/
theorem get_error_creates_file_counterexample :
    (getRun sampleCfg [.Recv ⟨10, 2000⟩ (.Error 1 [70, 110, 102])]).term
        = .Err (.Remote 1 [70, 110, 102]) ∧
    (getRun sampleCfg [.Recv ⟨10, 2000⟩ (.Error 1 [70, 110, 102])]).fileCreated = true := by
  decide

/-- C7 as amended.  When the server answers the RRQ with an ERROR packet,
`Client::get` returns an error carrying the server's code and message, but
the local file has already been created (empty) by the `File::create` that
precedes the receive loop. -/
theorem get_error_reply_errors_with_file_created (cfg : ClientCfg) (code : Nat)
    (msg : List Nat) (rest : List Event) :
    (getRun cfg (.Recv (initAddr cfg) (.Error code msg) :: rest)).term
        = .Err (.Remote code msg) ∧
    (getRun cfg (.Recv (initAddr cfg) (.Error code msg) :: rest)).fileCreated = true := by
  constructor
  · simp [getRun, getSteps, getStep, getProcess, getInit, initAddr]
  · rfl

/-! ## C9: OACK option values are ignored -/

/-- C9.  `Client::get` and `Client::put` match `Packet::Oack(_)` and never
read the option values: one loop iteration behaves identically for any two
OACKs that differ only in their option values, so the client proceeds with
its locally configured block size, window size and timeout. -/
theorem oack_values_ignored (cfg : ClientCfg) (file : List Nat) (gs : GetState)
    (ps : PutState) (src : Addr) (o1 o2 : List TransferOption) :
    getStep cfg gs (.Recv src (.Oack o1)) = getStep cfg gs (.Recv src (.Oack o2)) ∧
    putStep cfg file ps (.Recv src (.Oack o1)) = putStep cfg file ps (.Recv src (.Oack o2)) := by
  constructor
  · simp only [getStep, getProcess]
  · simp only [putStep, putProcess]

/-! ## C6: DATA with an unexpected block number -/

/-- C6 counterexample.  The claim says the receiver immediately ACKs the last
in-order block on a gap or duplicate; in `Client::get` of `client_impl.rs`
(lines 116-135) a DATA whose block number is not the expected one falls
through the `if block == block_num` with no else branch: at a concrete
mismatched DATA packet from the peer, nothing is sent and the state is
unchanged. -/
theorem mismatched_block_no_ack_counterexample :
    getStep sampleCfg sampleGetState (.Recv ⟨10, 2000⟩ (.Data 5 [7, 8]))
      = (.Continue sampleGetState, []) ∧
    (5 : Nat) ≠ sampleGetState.blockNum := by
  decide

/-- C6 as amended.  The two client implementations diverge on a misaligned
DATA packet: `Client::receive_file` in `client.rs` discards the payload and
immediately resends the ACK for the last in-order block
(`expected - 1`, wrapping), leaving its state unchanged; `Client::get` in
`client_impl.rs` discards the payload but sends no ACK at all (it keeps
waiting), also leaving its state unchanged. -/
theorem mismatched_block_behavior :
    (∀ (bs : Nat) (s : RecvFileState) (block : Nat) (data : List Nat),
      block ≠ s.expected →
      recvFileStep bs s (.Data block data)
        = (.Continue s, [.Ack ((s.expected + 65535) % 65536)])) ∧
    (∀ (cfg : ClientCfg) (s : GetState) (src : Addr) (block : Nat) (data : List Nat),
      s.tidSet = true → src = s.serverAddr → block ≠ s.blockNum →
      getStep cfg s (.Recv src (.Data block data)) = (.Continue s, [])) := by
  constructor
  · intro bs s block data hne
    simp [recvFileStep, hne]
  · intro cfg s src block data htid hsrc hne
    simp [getStep, getProcess, htid, hsrc, hne]

/-- Witness for the amended C6 at concrete mismatched DATA packets for both
implementations. -/
theorem mismatched_block_behavior_witness :
    recvFileStep 512 ⟨3, [[1]]⟩ (.Data 5 [7, 8]) = (.Continue ⟨3, [[1]]⟩, [.Ack 2]) ∧
    getStep sampleCfg sampleGetState (.Recv ⟨10, 2000⟩ (.Data 7 [7, 8]))
      = (.Continue sampleGetState, []) := by
  constructor
  · have h := mismatched_block_behavior.1 512 ⟨3, [[1]]⟩ 5 [7, 8] (by decide)
    simpa using h
  · exact mismatched_block_behavior.2 sampleCfg sampleGetState ⟨10, 2000⟩ 7 [7, 8]
      (by decide) (by decide) (by decide)

/-! ## C2: retry exhaustion against a silent peer -/

/-- `sampleCfg` with the retry budget set to `m` (the source hardcodes
`max_retries = 5` as a local; the field makes the dependence on the budget
explicit). -/
def cfgWithRetries (m : Nat) : ClientCfg := { sampleCfg with maxRetries := m }

/-- With `block_num = 0` and `k` retries left in the budget, a silent peer
makes the `put` loop resend the WRQ exactly `k` times and then fail with the
timeout error. -/
theorem putSteps_cons_continue (cfg : ClientCfg) (file : List Nat) (s : PutState)
    (e : Event) (es : List Event) (s2 : PutState) (out : List (Addr × Packet))
    (h : putStep cfg file s e = (.Continue s2, out)) :
    putSteps cfg file s (e :: es)
      = ((putSteps cfg file s2 es).1, out ++ (putSteps cfg file s2 es).2.1,
         (putSteps cfg file s2 es).2.2) := by
  simp [putSteps, h]

theorem getSteps_cons_continue (cfg : ClientCfg) (s : GetState)
    (e : Event) (es : List Event) (s2 : GetState) (out : List (Addr × Packet))
    (h : getStep cfg s e = (.Continue s2, out)) :
    getSteps cfg s (e :: es)
      = ((getSteps cfg s2 es).1, out ++ (getSteps cfg s2 es).2.1,
         (getSteps cfg s2 es).2.2) := by
  simp [getSteps, h]

theorem putSteps_all_timeouts (cfg : ClientCfg) (file : List Nat) :
    ∀ (k : Nat) (s : PutState), s.blockNum = 0 → s.retries + k = cfg.maxRetries →
      putSteps cfg file s (List.replicate (k + 1) .Timeout)
        = ({ s with retries := cfg.maxRetries },
           List.replicate k (s.serverAddr, wrqPacket cfg file.length), .Err .TimedOut) := by
  intro k
  induction k with
  | zero =>
    intro s hbn hr
    have hge : cfg.maxRetries ≤ s.retries := by omega
    have hreq : s.retries = cfg.maxRetries := by omega
    have hs : { s with retries := cfg.maxRetries } = s := by rw [← hreq]
    simp [putSteps, putStep, hge, hs]
  | succ k ih =>
    intro s hbn hr
    have hlt : ¬ cfg.maxRetries ≤ s.retries := by omega
    have hstep : putStep cfg file s .Timeout
        = (.Continue { s with retries := s.retries + 1 },
           [(s.serverAddr, wrqPacket cfg file.length)]) := by
      simp [putStep, hlt, hbn]
    rw [List.replicate_succ, putSteps_cons_continue cfg file s _ _ _ _ hstep,
      ih { s with retries := s.retries + 1 } hbn
        (by show s.retries + 1 + k = cfg.maxRetries; omega)]
    simp [List.replicate_succ]

/-- With `block_num = 1` and `k` retries left in the budget, a silent peer
makes the `get` loop resend `ACK 0` exactly `k` times and then fail with the
timeout error. -/
theorem getSteps_all_timeouts (cfg : ClientCfg) :
    ∀ (k : Nat) (s : GetState), s.blockNum = 1 → s.retries + k = cfg.maxRetries →
      getSteps cfg s (List.replicate (k + 1) .Timeout)
        = ({ s with retries := cfg.maxRetries },
           List.replicate k (s.serverAddr, .Ack 0), .Err .TimedOut) := by
  intro k
  induction k with
  | zero =>
    intro s hbn hr
    have hge : cfg.maxRetries ≤ s.retries := by omega
    have hreq : s.retries = cfg.maxRetries := by omega
    have hs : { s with retries := cfg.maxRetries } = s := by rw [← hreq]
    simp [getSteps, getStep, hge, hs]
  | succ k ih =>
    intro s hbn hr
    have hlt : ¬ cfg.maxRetries ≤ s.retries := by omega
    have hstep : getStep cfg s .Timeout
        = (.Continue { s with retries := s.retries + 1 }, [(s.serverAddr, .Ack 0)]) := by
      simp [getStep, hlt, hbn]
    rw [List.replicate_succ, getSteps_cons_continue cfg s _ _ _ _ hstep,
      ih { s with retries := s.retries + 1 } hbn
        (by show s.retries + 1 + k = cfg.maxRetries; omega)]
    simp [List.replicate_succ]

theorem countWrq_replicate (n : Nat) (a : Addr) (f m : List Nat)
    (o : List TransferOption) :
    countWrq (List.replicate n (a, .Wrq f m o)) = n := by
  induction n with
  | zero => rfl
  | succ n ih => simp [List.replicate_succ, countWrq, ih]

theorem countAck_replicate (n : Nat) (a : Addr) (b : Nat) :
    countAck (List.replicate n (a, .Ack b)) = n := by
  induction n with
  | zero => rfl
  | succ n ih => simp [List.replicate_succ, countAck, ih]

theorem countRrq_replicate_ack (n : Nat) (a : Addr) (b : Nat) :
    countRrq (List.replicate n (a, .Ack b)) = 0 := by
  induction n with
  | zero => rfl
  | succ n ih => simp [List.replicate_succ, countRrq, ih]

/-- C2 counterexample.  The claim predicts `retry_budget + 1 = 7`
transmissions with a default budget of 6; the client hardcodes
`max_retries = 5`, so against a silent peer `Client::put` transmits the WRQ
exactly 6 times — not 7 — before failing. -/
theorem retry_budget_counterexample :
    countWrq (putRun (cfgWithRetries clientImplMaxRetries) []
        (List.replicate 6 .Timeout)).2.1 = 6 ∧
    ¬ countWrq (putRun (cfgWithRetries clientImplMaxRetries) []
        (List.replicate 6 .Timeout)).2.1 = 6 + 1 ∧
    (putRun (cfgWithRetries clientImplMaxRetries) []
        (List.replicate 6 .Timeout)).2.2 = .Err .TimedOut := by
  decide

/-- C2 as amended.  Against a peer that never responds, `Client::put`
transmits the WRQ exactly `max_retries + 1` times and then fails with a
timeout error, where the source hardcodes `max_retries = 5` (so 6
transmissions, not the 7 the spec's `retry budget 6` would give); and
`Client::get` transmits the pending RRQ exactly once, retransmitting only the
last ACK (`ACK 0`) on each of its `max_retries` timeouts before failing. -/
theorem retry_exhaustion_transmissions (m : Nat) (file : List Nat) :
    countWrq (putRun (cfgWithRetries m) file (List.replicate (m + 1) .Timeout)).2.1 = m + 1 ∧
    (putRun (cfgWithRetries m) file (List.replicate (m + 1) .Timeout)).2.2 = .Err .TimedOut ∧
    countRrq (getRun (cfgWithRetries m) (List.replicate (m + 1) .Timeout)).sends = 1 ∧
    countAck (getRun (cfgWithRetries m) (List.replicate (m + 1) .Timeout)).sends = m ∧
    (getRun (cfgWithRetries m) (List.replicate (m + 1) .Timeout)).term = .Err .TimedOut ∧
    clientImplMaxRetries = 5 := by
  have hput := putSteps_all_timeouts (cfgWithRetries m) file m (putInit (cfgWithRetries m))
    rfl (by simp [putInit, cfgWithRetries, sampleCfg])
  have hget := getSteps_all_timeouts (cfgWithRetries m) m (getInit (cfgWithRetries m))
    rfl (by simp [getInit, cfgWithRetries, sampleCfg])
  refine ⟨?_, ?_, ?_, ?_, ?_, rfl⟩
  · simp [putRun, hput, countWrq, wrqPacket, countWrq_replicate]
  · simp [putRun, hput]
  · simp [getRun, hget, countRrq, rrqPacket, countRrq_replicate_ack]
  · simp [getRun, hget, countAck, rrqPacket, countAck_replicate]
  · simp [getRun, hget]

/-! ## C4: the transmitted DATA block-number sequence of `Client::put`

The run is driven by the in-order schedule: the server answers the WRQ with
an OACK and then ACKs every block.  The file holds `k` full blocks, so the
client transmits `k + 1` DATA packets (the last one empty), numbered
`1, 2, 3, …` wrapping modulo `2^16` (after 65535 comes 0, as `wrapping_add`
does). -/

/-- The server-side TID used by the C4 run. -/
def c4srv : Addr := ⟨10, 2000⟩

/-- The C4 client configuration: `sampleCfg` with block size `B`. -/
def c4cfg (B : Nat) : ClientCfg := { sampleCfg with blockSize := B }

/-- The in-order ACK schedule: `r` ACKs for blocks `i, i+1, …` (mod `2^16`). -/
def ackEvents (i : Nat) : Nat → List Event
| 0 => []
| r + 1 => .Recv c4srv (.Ack (i % 65536)) :: ackEvents (i + 1) r

/-- `r` consecutive block numbers starting at `i + 1`, modulo `2^16`. -/
def blockSeq (i : Nat) : Nat → List Nat
| 0 => []
| r + 1 => (i + 1) % 65536 :: blockSeq (i + 1) r

/-- The `put` loop state just before the ACK for block `i` arrives
(`1 ≤ i ≤ k + 1`): `i` blocks sent, `min i k` of them read from the file. -/
def c4state (k B i : Nat) : PutState :=
⟨true, c4srv, i % 65536, 0, decide (i = k + 1), min i k * B⟩

/-- The payload of the DATA packet sent in reply to the ACK for block `i`:
a full block while file data remains, the empty final block at `i = k`. -/
def c4chunk (k B i : Nat) : List Nat := List.replicate (min B (k * B - i * B)) 0

theorem dataBlocks_append (l1 l2 : List (Addr × Packet)) :
    dataBlocks (l1 ++ l2) = dataBlocks l1 ++ dataBlocks l2 := by
  induction l1 with
  | nil => rfl
  | cons x rest ih =>
    obtain ⟨a, p⟩ := x
    cases p <;> simp [dataBlocks, ih]

theorem blockSeq_eq_map (r : Nat) :
    ∀ i, blockSeq i r = (List.range r).map (fun t => (i + t + 1) % 65536) := by
  induction r with
  | zero => intro i; rfl
  | succ r ih =>
    intro i
    rw [List.range_succ_eq_map]
    simp only [blockSeq, List.map_cons, List.map_map, ih (i + 1)]
    have hhead : (i + 0 + 1) % 65536 = (i + 1) % 65536 := by omega
    have htail : List.map ((fun t => (i + t + 1) % 65536) ∘ Nat.succ) (List.range r)
        = List.map (fun t => (i + 1 + t + 1) % 65536) (List.range r) := by
      apply List.map_congr_left
      intro t _
      show (i + (t + 1) + 1) % 65536 = (i + 1 + t + 1) % 65536
      omega
    rw [hhead, htail]

/-- Processing the in-order ACK for block `i ≤ k` transmits the next DATA
block and advances the state. -/
theorem c4_step (k B i : Nat) (hB : 0 < B) (hi1 : 1 ≤ i) (hik : i ≤ k) :
    putStep (c4cfg B) (List.replicate (k * B) 0) (c4state k B i)
        (.Recv c4srv (.Ack (i % 65536)))
      = (.Continue (c4state k B (i + 1)),
         [(c4srv, .Data ((i + 1) % 65536) (c4chunk k B i))]) := by
  have hmin : min i k = i := Nat.min_eq_left hik
  have hchunk : readChunk (List.replicate (k * B) 0) (min i k * B) B = c4chunk k B i := by
    simp [readChunk, c4chunk, List.drop_replicate, List.take_replicate, hmin]
  have hlen : (c4chunk k B i).length = min B (k * B - i * B) := by
    simp [c4chunk]
  have hfin : decide (i = k + 1) = false := decide_eq_false (by omega)
  have hmod : (i % 65536 + 1) % 65536 = (i + 1) % 65536 := by omega
  rcases Nat.lt_or_ge i k with hlt | hge
  · have hmul : B + i * B ≤ k * B := by
      calc B + i * B = (i + 1) * B := by ring
        _ ≤ k * B := Nat.mul_le_mul_right B (by omega)
    have hsub : B ≤ k * B - i * B := Nat.le_sub_of_add_le hmul
    have hminB : min B (k * B - i * B) = B := Nat.min_eq_left hsub
    have hoff : min i k * B + min B (k * B - i * B) = min (i + 1) k * B := by
      rw [hmin, hminB, Nat.min_eq_left (by omega : i + 1 ≤ k)]
      ring
    have hfin2 : decide (min B (k * B - i * B) < B) = decide (i + 1 = k + 1) := by
      rw [hminB, decide_eq_false (Nat.lt_irrefl B)]
      exact (decide_eq_false (by omega)).symm
    simp only [putStep, putProcess, c4state, c4cfg, sampleCfg]
    simp [hfin, hmod, hchunk, hlen, hoff, hfin2]
    exact iff_of_false (Nat.not_lt.2 hsub) (by omega)
  · have hieq : i = k := by omega
    subst hieq
    have hc4 : c4chunk i B i = [] := by simp [c4chunk]
    have hrc : readChunk (List.replicate (i * B) 0) (i * B) B = [] := by
      simp [readChunk]
    simp only [putStep, putProcess, c4state, c4cfg, sampleCfg]
    simp [hfin, hmod, hrc, hc4, hB, Nat.min_eq_right (show i ≤ i + 1 by omega)]

/-- The ACK for the final (short) block makes the loop break successfully. -/
theorem c4_final_step (k B : Nat) :
    putStep (c4cfg B) (List.replicate (k * B) 0) (c4state k B (k + 1))
        (.Recv c4srv (.Ack ((k + 1) % 65536)))
      = (.Done (c4state k B (k + 1)), []) := by
  simp [putStep, putProcess, c4state]

/-- The server's OACK makes the client send DATA block 1. -/
theorem c4_oack_step (k B : Nat) (hB : 0 < B) :
    putStep (c4cfg B) (List.replicate (k * B) 0) (putInit (c4cfg B))
        (.Recv c4srv (.Oack []))
      = (.Continue (c4state k B 1), [(c4srv, .Data 1 (c4chunk k B 0))]) := by
  have hchunk : readChunk (List.replicate (k * B) 0) 0 B = c4chunk k B 0 := by
    simp [readChunk, c4chunk, List.take_replicate]
  rcases Nat.eq_zero_or_pos k with hk | hk
  · subst hk
    have h0 : c4chunk 0 B 0 = [] := by simp [c4chunk]
    simp only [putStep, putProcess, putInit, initAddr, c4cfg, sampleCfg, c4srv, c4state]
    simp [hchunk, h0, hB, c4chunk, c4srv]
    exact ⟨by simpa [readChunk] using hB, by simp [readChunk]⟩
  · have hmulB : B ≤ k * B := by
      calc B = 1 * B := by ring
        _ ≤ k * B := Nat.mul_le_mul_right B hk
    have hminB : min B (k * B - 0 * B) = B := by
      rw [Nat.zero_mul, Nat.sub_zero]
      exact Nat.min_eq_left hmulB
    have hlen : (c4chunk k B 0).length = B := by
      simp [c4chunk, hminB]
      exact hmulB
    have hfin : decide ((1 : Nat) = k + 1) = false := decide_eq_false (by omega)
    have hmin1 : min 1 k = 1 := Nat.min_eq_left hk
    simp only [putStep, putProcess, putInit, initAddr, c4cfg, sampleCfg, c4srv, c4state]
    simp [hchunk, hlen, hfin, hmin1, c4srv]
    omega

/-- Driving the loop from the state before the ACK for block `i` with the
in-order ACK schedule for blocks `i, …, k + 1` transmits exactly the DATA
blocks `i + 1, …, k + 1` (mod `2^16`) and ends successfully. -/
theorem c4_loop (k B : Nat) (hB : 0 < B) :
    ∀ (r i : Nat), i + r = k + 1 → 1 ≤ i →
      dataBlocks (putSteps (c4cfg B) (List.replicate (k * B) 0) (c4state k B i)
          (ackEvents i (r + 1))).2.1 = blockSeq i r ∧
      (putSteps (c4cfg B) (List.replicate (k * B) 0) (c4state k B i)
          (ackEvents i (r + 1))).2.2 = .Ok := by
  intro r
  induction r with
  | zero =>
    intro i hik hi1
    have hieq : i = k + 1 := by omega
    subst hieq
    simp [ackEvents, putSteps, c4_final_step k B, blockSeq, dataBlocks]
  | succ r ih =>
    intro i hik hi1
    have hik2 : i ≤ k := by omega
    have hstep := c4_step k B i hB hi1 hik2
    have hrest := ih (i + 1) (by omega) (by omega)
    rw [show ackEvents i (r + 1 + 1)
          = .Recv c4srv (.Ack (i % 65536)) :: ackEvents (i + 1) (r + 1) from rfl,
        putSteps_cons_continue _ _ _ _ _ _ _ hstep]
    constructor
    · show dataBlocks ([(c4srv, Packet.Data ((i + 1) % 65536) (c4chunk k B i))]
          ++ (putSteps (c4cfg B) (List.replicate (k * B) 0) (c4state k B (i + 1))
              (ackEvents (i + 1) (r + 1))).2.1) = blockSeq i (r + 1)
      rw [dataBlocks_append, hrest.1]
      simp [dataBlocks, blockSeq]
    · exact hrest.2

/-- C4.  Within a single `Client::put` transfer driven by the in-order
schedule (OACK, then an ACK for every block), the sequence of transmitted
DATA block numbers is exactly `1, 2, 3, …` modulo `2^16` (`wrapping_add`
rolls 65535 over to 0, matching the default `Rollover::Enforce0` server
policy), with the first transmitted block number `b₀ = 1`; the transfer of a
`k`-full-block file ends successfully after `k + 1` DATA packets. -/
theorem put_data_block_sequence (k B : Nat) (hB : 0 < B) :
    dataBlocks (putRun (c4cfg B) (List.replicate (k * B) 0)
        (.Recv c4srv (.Oack []) :: ackEvents 1 (k + 1))).2.1
      = (List.range (k + 1)).map (fun t => (t + 1) % 65536) ∧
    ((List.range (k + 1)).map (fun t => (t + 1) % 65536)).head? = some 1 ∧
    (putRun (c4cfg B) (List.replicate (k * B) 0)
        (.Recv c4srv (.Oack []) :: ackEvents 1 (k + 1))).2.2 = .Ok := by
  have hoack := c4_oack_step k B hB
  have hloop := c4_loop k B hB k 1 (by omega) (by omega)
  have hmap : (List.range (k + 1)).map (fun t => (t + 1) % 65536) = blockSeq 0 (k + 1) := by
    rw [blockSeq_eq_map]
    apply List.map_congr_left
    intro t _
    show (t + 1) % 65536 = (0 + t + 1) % 65536
    omega
  have hcons : blockSeq 0 (k + 1) = 1 :: blockSeq 1 k := rfl
  refine ⟨?_, ?_, ?_⟩
  · rw [hmap, hcons]
    show dataBlocks (putSteps (c4cfg B) (List.replicate (k * B) 0) (putInit (c4cfg B))
        (.Recv c4srv (.Oack []) :: ackEvents 1 (k + 1))).2.1 = 1 :: blockSeq 1 k
    rw [putSteps_cons_continue _ _ _ _ _ _ _ hoack]
    show dataBlocks ([(c4srv, Packet.Data 1 (c4chunk k B 0))]
        ++ (putSteps (c4cfg B) (List.replicate (k * B) 0) (c4state k B 1)
            (ackEvents 1 (k + 1))).2.1) = 1 :: blockSeq 1 k
    rw [dataBlocks_append, hloop.1]
    simp [dataBlocks]
  · rw [hmap, hcons]
    rfl
  · show (putSteps (c4cfg B) (List.replicate (k * B) 0) (putInit (c4cfg B))
        (.Recv c4srv (.Oack []) :: ackEvents 1 (k + 1))).2.2 = .Ok
    rw [putSteps_cons_continue _ _ _ _ _ _ _ hoack]
    exact hloop.2

/-- Witness for C4 at `k = 3` blocks of size `B = 2`. -/
theorem put_data_block_sequence_witness :
    (0 : Nat) < 2 ∧
    dataBlocks (putRun (c4cfg 2) (List.replicate 6 0)
        (.Recv c4srv (.Oack []) :: ackEvents 1 4)).2.1 = [1, 2, 3, 4] := by
  refine ⟨by decide, ?_⟩
  have h := (put_data_block_sequence 3 2 (by decide)).1
  simpa using h

/-! ## C8: `ServerSocket` (`src/tftp/core/socket.rs`)

A `ServerSocket` wraps the shared `UdpSocket` together with the worker's
inbox channel (`mpsc::Receiver<Packet>`).  The `UdpSocket` is modelled as a
state carrying the queue of datagrams waiting on the wire, the count of raw
receive calls performed on it, and the datagrams sent through it; the plain
`Socket` impl for `UdpSocket` consumes the wire queue and bumps the counter,
while `ServerSocket` must not. -/

/-- The state of a raw `UdpSocket`: datagrams queued on the wire, raw receive
calls performed so far, and datagrams sent. -/
structure UdpState where
wire : List (Addr × List Nat)
rawRecvCalls : Nat
sent : List (Addr × List Nat)
deriving DecidableEq, Repr

/-- `Socket::recv_from` of the plain `UdpSocket` impl: a raw receive that
consumes the head of the wire queue and bumps the raw-receive counter. -/
def UdpState.rawRecvFrom (u : UdpState) : Option (Addr × List Nat) × UdpState :=
match u.wire with
| [] => (none, { u with rawRecvCalls := u.rawRecvCalls + 1 })
| d :: rest => (some d, { u with wire := rest, rawRecvCalls := u.rawRecvCalls + 1 })

/-- The receive-side failures of `ServerSocket::recv_with_size`:
`WouldBlock` from `try_recv` in nonblocking mode, the `anyhow` failure of
`recv_timeout` otherwise. -/
inductive RecvErr where
| WouldBlock
| RecvFailed
deriving DecidableEq, Repr

/-- The `ServerSocket` struct: the shared socket, the fixed remote, the inbox
channel contents, the timeout, and the nonblocking flag. -/
structure ServerSocketSt where
socket : UdpState
remote : Addr
inbox : List Packet
timeoutSecs : Nat
nonblocking : Bool
deriving DecidableEq, Repr

/-- `MAX_REQUEST_PACKET_SIZE` from `socket.rs`. -/
def MAX_REQUEST_PACKET_SIZE : Nat := 512

/-- `ServerSocket::recv_with_size`: pops the worker's inbox channel
(`try_recv` when nonblocking, `recv_timeout` otherwise); the buffer size
argument is unused (`_size`) and the raw socket is never touched. -/
def ServerSocketSt.recv_with_size (s : ServerSocketSt) (_size : Nat) :
    Except RecvErr Packet × ServerSocketSt :=
match s.inbox with
| p :: rest => (.ok p, { s with inbox := rest })
| [] =>
  if s.nonblocking then (.error .WouldBlock, s)
  else (.error .RecvFailed, s)

/-- The default `Socket::recv`, built on `recv_with_size` with
`MAX_REQUEST_PACKET_SIZE`. -/
def ServerSocketSt.recv (s : ServerSocketSt) : Except RecvErr Packet × ServerSocketSt :=
s.recv_with_size MAX_REQUEST_PACKET_SIZE

/-- `ServerSocket::recv_from_with_size`: `Ok((self.recv()?, self.remote))` —
the size argument is ignored and the address is always the stored remote. -/
def ServerSocketSt.recv_from_with_size (s : ServerSocketSt) (_size : Nat) :
    Except RecvErr (Packet × Addr) × ServerSocketSt :=
let r := s.recv
(r.1.map (fun p => (p, s.remote)), r.2)

/-- `ServerSocket::send_to`: serializes and sends through the shared
`UdpSocket`. -/
def ServerSocketSt.send_to (s : ServerSocketSt) (p : Packet) (dst : Addr) : ServerSocketSt :=
{ s with socket := { s.socket with sent := s.socket.sent ++ [(dst, p.serialize)] } }

/-- `ServerSocket::send`: `send_to` the stored remote. -/
def ServerSocketSt.send (s : ServerSocketSt) (p : Packet) : ServerSocketSt :=
s.send_to p s.remote

/-- C8.  In single-port mode a worker never reads the raw shared socket:
`ServerSocket::recv_with_size` (for every size argument) returns the head of
the worker's inbox and leaves the whole `UdpSocket` state — wire queue,
raw-receive count, and sent datagrams — untouched; `recv` and
`recv_from_with_size` are exactly the inbox-based defaults built on it
(`recv_from_with_size` reporting the stored remote); and the send paths touch
the socket only by appending to its sent datagrams, never receiving. -/
theorem server_socket_never_reads_raw (s : ServerSocketSt) (sz : Nat) (p : Packet)
    (dst : Addr) :
    (s.recv_with_size sz).2.socket = s.socket ∧
    (s.recv_with_size sz).2.remote = s.remote ∧
    (s.recv_with_size sz).1 = (match s.inbox with
      | q :: _ => .ok q
      | [] => .error (if s.nonblocking then .WouldBlock else .RecvFailed)) ∧
    (s.recv_with_size sz).2.inbox = s.inbox.tail ∧
    s.recv = s.recv_with_size MAX_REQUEST_PACKET_SIZE ∧
    s.recv_from_with_size sz = ((s.recv).1.map (fun q => (q, s.remote)), (s.recv).2) ∧
    (s.send_to p dst).socket.rawRecvCalls = s.socket.rawRecvCalls ∧
    (s.send_to p dst).socket.wire = s.socket.wire ∧
    (s.send_to p dst).socket.sent = s.socket.sent ++ [(dst, p.serialize)] ∧
    s.send p = s.send_to p s.remote := by
  refine ⟨?_, ?_, ?_, ?_, rfl, rfl, rfl, rfl, rfl, rfl⟩ <;>
    cases hib : s.inbox <;>
    cases hnb : s.nonblocking <;>
    simp [ServerSocketSt.recv_with_size, hib, hnb]

/-! ## C10: configuration merging (`client/config.rs`, `server/config.rs`)

Both `merge_cli` functions fill a field from the CLI (or a built-in default)
only when the config file left it `None`; strings and paths are modelled as
byte lists, durations as whole seconds. -/

/-- `if self.x.is_none() { self.x = Some(d) }`. -/
def fillNone {α : Type} (o : Option α) (d : α) : Option α :=
match o with
| none => some d
| some v => some v

theorem fillNone_eq {α : Type} (o : Option α) (d : α) : fillNone o d = some (o.getD d) := by
  cases o <;> rfl

/-- The ASCII bytes of the string `octet`. -/
def octetBytes : List Nat := [111, 99, 116, 101, 116]

/-- Modelled from the spec: the `Rollover` policy of the absent
`core/options.rs`; `server/config.rs` names `Rollover::Enforce0` (the
spec's `WrapToZero`), and the spec's `WrapToOne` is the other variant. -/
inductive Rollover where
| Enforce0
| Enforce1
deriving DecidableEq, Repr

/-- `ClientConfig` from `client/config.rs`: every field is `Option`al. -/
structure ClientConfigR where
server : Option (List Nat)
port : Option Nat
block_size : Option Nat
timeout : Option Nat
window_size : Option Nat
mode : Option (List Nat)
deriving DecidableEq, Repr

/-- The all-`None` `ClientConfig` produced by the `Default` derive. -/
def ClientConfigR.empty : ClientConfigR := ⟨none, none, none, none, none, none⟩

/-- `ClientConfig::merge_cli`: the CLI server/port/block-size/timeout fill
only unset fields; `window_size` and `mode` fall back to `1` and `octet`. -/
def ClientConfigR.merge_cli (c : ClientConfigR) (cliServer : List Nat)
    (cliPort cliBlockSize cliTimeout : Nat) : ClientConfigR :=
{ server := fillNone c.server cliServer,
  port := fillNone c.port cliPort,
  block_size := fillNone c.block_size cliBlockSize,
  timeout := fillNone c.timeout cliTimeout,
  window_size := fillNone c.window_size 1,
  mode := fillNone c.mode octetBytes }

/-- `Config` from `server/config.rs`: every field is `Option`al. -/
structure ServerConfigR where
ip : Option (List Nat)
port : Option Nat
directory : Option (List Nat)
receive_directory : Option (List Nat)
send_directory : Option (List Nat)
single_port : Option Bool
read_only : Option Bool
overwrite : Option Bool
repeat_count : Option Nat
clean_on_error : Option Bool
max_retries : Option Nat
rollover : Option Rollover
deriving DecidableEq, Repr

/-- The all-`None` server `Config` produced by the `Default` derive. -/
def ServerConfigR.empty : ServerConfigR :=
⟨none, none, none, none, none, none, none, none, none, none, none, none⟩

/-- `Config::merge_cli`: CLI ip/port/path/read-only/single-port fill only
unset fields; overwrite, repeat count, clean-on-error, max retries and
rollover fall back to built-in defaults; `receive_directory` and
`send_directory` are not touched at all. -/
def ServerConfigR.merge_cli (c : ServerConfigR) (cliIp : List Nat) (cliPort : Nat)
    (cliPath : List Nat) (cliReadOnly cliSinglePort : Bool) : ServerConfigR :=
{ c with
  ip := fillNone c.ip cliIp,
  port := fillNone c.port cliPort,
  directory := fillNone c.directory cliPath,
  read_only := fillNone c.read_only cliReadOnly,
  single_port := fillNone c.single_port cliSinglePort,
  overwrite := fillNone c.overwrite true,
  repeat_count := fillNone c.repeat_count 1,
  clean_on_error := fillNone c.clean_on_error true,
  max_retries := fillNone c.max_retries 6,
  rollover := fillNone c.rollover Rollover.Enforce0 }

/-- C10 counterexample.  The claim says every field is `Some` after
`merge_cli`; but the server's `merge_cli` never touches `receive_directory`
or `send_directory`, so merging the default (all-`None`) config with CLI
arguments leaves both fields `None`. -/
theorem merge_cli_directories_counterexample :
    (ServerConfigR.empty.merge_cli [48] 69 [46] false false).receive_directory = none ∧
    (ServerConfigR.empty.merge_cli [48] 69 [46] false false).send_directory = none := by
  decide

/-- C10 as amended.  In both `merge_cli` functions a value present in the
configuration file always wins: each merged field equals the file's value
when set, and the CLI argument (or built-in default) otherwise.  After the
merge every `ClientConfig` field is `Some`, and every server `Config` field
is `Some` except `receive_directory` and `send_directory`, which are
returned unchanged (and so stay `None` when the file leaves them unset). -/
theorem merge_cli_file_precedence (c : ClientConfigR) (sc : ServerConfigR)
    (cliServer : List Nat) (cliPort cliBlockSize cliTimeout : Nat)
    (cliIp : List Nat) (cliPort2 : Nat) (cliPath : List Nat)
    (cliReadOnly cliSinglePort : Bool) :
    (c.merge_cli cliServer cliPort cliBlockSize cliTimeout).server
        = some (c.server.getD cliServer) ∧
    (c.merge_cli cliServer cliPort cliBlockSize cliTimeout).port
        = some (c.port.getD cliPort) ∧
    (c.merge_cli cliServer cliPort cliBlockSize cliTimeout).block_size
        = some (c.block_size.getD cliBlockSize) ∧
    (c.merge_cli cliServer cliPort cliBlockSize cliTimeout).timeout
        = some (c.timeout.getD cliTimeout) ∧
    (c.merge_cli cliServer cliPort cliBlockSize cliTimeout).window_size
        = some (c.window_size.getD 1) ∧
    (c.merge_cli cliServer cliPort cliBlockSize cliTimeout).mode
        = some (c.mode.getD octetBytes) ∧
    (sc.merge_cli cliIp cliPort2 cliPath cliReadOnly cliSinglePort).ip
        = some (sc.ip.getD cliIp) ∧
    (sc.merge_cli cliIp cliPort2 cliPath cliReadOnly cliSinglePort).port
        = some (sc.port.getD cliPort2) ∧
    (sc.merge_cli cliIp cliPort2 cliPath cliReadOnly cliSinglePort).directory
        = some (sc.directory.getD cliPath) ∧
    (sc.merge_cli cliIp cliPort2 cliPath cliReadOnly cliSinglePort).read_only
        = some (sc.read_only.getD cliReadOnly) ∧
    (sc.merge_cli cliIp cliPort2 cliPath cliReadOnly cliSinglePort).single_port
        = some (sc.single_port.getD cliSinglePort) ∧
    (sc.merge_cli cliIp cliPort2 cliPath cliReadOnly cliSinglePort).overwrite
        = some (sc.overwrite.getD true) ∧
    (sc.merge_cli cliIp cliPort2 cliPath cliReadOnly cliSinglePort).repeat_count
        = some (sc.repeat_count.getD 1) ∧
    (sc.merge_cli cliIp cliPort2 cliPath cliReadOnly cliSinglePort).clean_on_error
        = some (sc.clean_on_error.getD true) ∧
    (sc.merge_cli cliIp cliPort2 cliPath cliReadOnly cliSinglePort).max_retries
        = some (sc.max_retries.getD 6) ∧
    (sc.merge_cli cliIp cliPort2 cliPath cliReadOnly cliSinglePort).rollover
        = some (sc.rollover.getD Rollover.Enforce0) ∧
    (sc.merge_cli cliIp cliPort2 cliPath cliReadOnly cliSinglePort).receive_directory
        = sc.receive_directory ∧
    (sc.merge_cli cliIp cliPort2 cliPath cliReadOnly cliSinglePort).send_directory
        = sc.send_directory := by
  simp [ClientConfigR.merge_cli, ServerConfigR.merge_cli, fillNone_eq]

end Tftp
